import Mathlib

/-! Remind Me (src/App.js): trigger predicate, persistence and timer lifecycle.

A shallow embedding of the single React component `App` of the repository.

* JavaScript numbers held by the component are integers, `-0` or `NaN`
  (`parseInt` produces nothing else); they are modelled by `JSNumber`.
  The model is exact for integers of magnitude below `2^53`.
* `localStorage` is a finite map from keys to strings.
* React state, the three `useEffect` hooks and the browser interval table are
  made explicit in `App` and advanced by `step`.
-/

namespace RemindMe

/-! ## JavaScript values -/

/-- A JavaScript number as the component can hold one: `NaN`, negative zero,
or an integer (`int 0` is positive zero). -/
inductive JSNumber where
  | nan
  | negZero
  | int (i : Int)
  deriving DecidableEq, Repr

namespace JSNumber

/-- Mathematical value of a number, `none` for `NaN`. -/
def value : JSNumber → Option Int
  | nan => none
  | negZero => some 0
  | int i => some i

/-- JavaScript `a >= b`. -/
def ge (a b : JSNumber) : Bool :=
  match a.value, b.value with
  | some x, some y => decide (y ≤ x)
  | _, _ => false

/-- JavaScript `a <= b`. -/
def le (a b : JSNumber) : Bool :=
  match a.value, b.value with
  | some x, some y => decide (x ≤ y)
  | _, _ => false

/-- JavaScript `a > b`. -/
def gt (a b : JSNumber) : Bool :=
  match a.value, b.value with
  | some x, some y => decide (y < x)
  | _, _ => false

/-- JavaScript `a < b`. -/
def lt (a b : JSNumber) : Bool :=
  match a.value, b.value with
  | some x, some y => decide (x < y)
  | _, _ => false

/-- JavaScript `a === b` on numbers: `NaN` differs from everything, the two
zeros are equal. -/
def strictEq (a b : JSNumber) : Bool :=
  match a.value, b.value with
  | some x, some y => decide (x = y)
  | _, _ => false

/-- JavaScript `a % b`: `NaN` when an operand is `NaN` or the divisor is zero,
otherwise the truncated remainder, which takes the sign of the dividend. -/
def rem (a b : JSNumber) : JSNumber :=
  match a, b.value with
  | nan, _ => nan
  | _, none => nan
  | negZero, some y => if y = 0 then nan else negZero
  | int x, some y =>
    if y = 0 then nan
    else if Int.tmod x y = 0 ∧ x < 0 then negZero
    else int (Int.tmod x y)

/-- Decimal digit `d < 10` as a character. -/
def digitChar (d : Nat) : Char := Char.ofNat (48 + d)

/-- Decimal digits of `n`, most significant first; `fuel` bounds the number
of digits and `n + 1` is always enough. -/
def decimalDigits : Nat → Nat → List Char
  | 0, _ => []
  | fuel + 1, n =>
    if n < 10 then [digitChar n]
    else decimalDigits fuel (n / 10) ++ [digitChar (n % 10)]

/-- `Number::toString` (radix 10) for the numbers of the model. -/
def toJSString : JSNumber → String
  | nan => "NaN"
  | negZero => "0"
  | int i =>
    if i < 0 then String.mk (Char.ofNat 45 :: decimalDigits (i.natAbs + 1) i.natAbs)
    else String.mk (decimalDigits (i.natAbs + 1) i.natAbs)

end JSNumber

open JSNumber

/-- `String(b)` for a boolean. -/
def boolToString (b : Bool) : String := if b then "true" else "false"

/-- White space and line terminators skipped by `parseInt` (code points). -/
def isWhiteSpace (c : Char) : Bool :=
  c.toNat ∈ [9, 10, 11, 12, 13, 32, 160, 5760, 8192, 8193, 8194, 8195, 8196, 8197, 8198,
    8199, 8200, 8201, 8202, 8232, 8233, 8239, 8287, 12288, 65279]

/-- Value of a character as a digit in some radix up to 36. -/
def digitValue (c : Char) : Option Nat :=
  if 48 ≤ c.toNat ∧ c.toNat ≤ 57 then some (c.toNat - 48)
  else if 97 ≤ c.toNat ∧ c.toNat ≤ 122 then some (c.toNat - 87)
  else if 65 ≤ c.toNat ∧ c.toNat ≤ 90 then some (c.toNat - 55)
  else none

/-- Value of a character as a digit of radix `R`, if it is one. -/
def radixDigit (R : Nat) (c : Char) : Option Nat :=
  match digitValue c with
  | some d => if d < R then some d else none
  | none => none

/-- The longest prefix of radix-`R` digits, as digit values. -/
def takeDigits (R : Nat) : List Char → List Nat
  | [] => []
  | c :: cs =>
    match radixDigit R c with
    | some d => d :: takeDigits R cs
    | none => []

/-- Integer denoted by a digit sequence in radix `R`. -/
def digitsValue (R : Nat) (ds : List Nat) : Nat :=
  ds.foldl (fun acc d => acc * R + d) 0

/-- Step 3-4 of `parseInt`: read and remove a leading sign. -/
def stripSign : List Char → Bool × List Char
  | [] => (false, [])
  | c :: cs =>
    if c.toNat = 45 then (true, cs)
    else if c.toNat = 43 then (false, cs)
    else (false, c :: cs)

/-- Step 8-9 of `parseInt` with the radix argument absent: a `0x` or `0X`
prefix selects radix 16, otherwise the radix is 10. -/
def stripHexPrefix : List Char → Nat × List Char
  | a :: b :: cs =>
    if a.toNat = 48 ∧ (b.toNat = 120 ∨ b.toNat = 88) then (16, cs) else (10, a :: b :: cs)
  | cs => (10, cs)

/-- JavaScript `parseInt(s)` with one argument. -/
def parseInt (s : String) : JSNumber :=
  let trimmed := s.data.dropWhile isWhiteSpace
  let signed := stripSign trimmed
  let radixed := stripHexPrefix signed.2
  let ds := takeDigits radixed.1 radixed.2
  if ds.isEmpty then nan
  else if digitsValue radixed.1 ds = 0 ∧ signed.1 = true then negZero
  else if signed.1 then int (-(digitsValue radixed.1 ds : Int))
  else int (digitsValue radixed.1 ds)

/-! ## localStorage and the six preferences (App.js lines 21-26, 40-47) -/

/-- The contents of `localStorage`. -/
def Storage := String → Option String

/-- Storage holding no key. -/
def Storage.empty : Storage := fun _ => none

/-- JavaScript `localStorage.getItem(key)`; `none` is `null`. -/
def getItem (st : Storage) (key : String) : Option String := st key

/-- JavaScript `localStorage.setItem(key, value)` for a string value. -/
def setItem (st : Storage) (key value : String) : Storage :=
  fun k => if k = key then some value else st k

/-- JavaScript `stored || dflt` for a stored item: `null` and the empty
string are falsy. -/
def orDefault (stored : Option String) (dflt : String) : String :=
  match stored with
  | none => dflt
  | some s => if s = "" then dflt else s

/-- The six pieces of React state. -/
structure Prefs where
  enabled : Bool
  soundEnabled : Bool
  startHour : JSNumber
  endHour : JSNumber
  intervalMinutes : JSNumber
  darkMode : Bool
  deriving DecidableEq, Repr

/-- The `useState` initialisers (lines 21-26). -/
def initialPrefs (st : Storage) : Prefs where
  enabled := decide (getItem st "remindersEnabled" = some "true")
  soundEnabled := decide (getItem st "soundEnabled" = some "true")
  startHour := parseInt (orDefault (getItem st "startHour") "9")
  endHour := parseInt (orDefault (getItem st "endHour") "17")
  intervalMinutes := parseInt (orDefault (getItem st "intervalMinutes") "30")
  darkMode := decide (getItem st "darkMode" = some "true")

/-- The save effect (lines 41-46); `setItem` stores the string form of each
value. -/
def saveEffect (p : Prefs) (st : Storage) : Storage :=
  let s1 := setItem st "remindersEnabled" (boolToString p.enabled)
  let s2 := setItem s1 "soundEnabled" (boolToString p.soundEnabled)
  let s3 := setItem s2 "startHour" (toJSString p.startHour)
  let s4 := setItem s3 "endHour" (toJSString p.endHour)
  let s5 := setItem s4 "intervalMinutes" (toJSString p.intervalMinutes)
  setItem s5 "darkMode" (boolToString p.darkMode)

/-! ## Trigger predicate and tick body (App.js lines 52-72) -/

/-- The condition of the `if` in the interval callback (lines 57-62). -/
def trigger (hours minutes startHour endHour intervalMinutes : JSNumber) : Bool :=
  ge hours startHour &&
  le hours endHour &&
  ((gt hours startHour || ge minutes (int 0)) && (lt hours endHour || le minutes (int 59))) &&
  strictEq (rem minutes intervalMinutes) (int 0)

/-- Browser calls issued by the component. -/
inductive Action where
  | newNotification (title body : String)
  | audioPlay (src : String)
  | requestPermission
  | setInterval (id : Nat) (ms : Nat)
  | clearInterval (id : Nat)
  deriving DecidableEq, Repr

/-- The notification constructed at line 63. -/
def reminder : Action :=
  Action.newNotification "Check TradingView 📈" "Time to check your chart!"

/-- The sound played at lines 68-69. -/
def ding : Action := Action.audioPlay "/ding.mp3"

/-- Local time as read by `new Date()`, `getHours()` and `getMinutes()`. -/
structure Clock where
  hours : Int
  minutes : Int
  deriving DecidableEq, Repr

/-- An interval callback registered by `setInterval` at line 52, with the
values of the render it closes over. -/
structure Timer where
  id : Nat
  soundEnabled : Bool
  startHour : JSNumber
  endHour : JSNumber
  intervalMinutes : JSNumber
  deriving DecidableEq, Repr

/-- Body of the interval callback (lines 53-71). -/
def tickBody (t : Timer) (now : Clock) : List Action :=
  if trigger (int now.hours) (int now.minutes) t.startHour t.endHour t.intervalMinutes then
    reminder :: (if t.soundEnabled then [ding] else [])
  else []

/-! ## The component: state, effects and events -/

/-- Values of `Notification.permission`. -/
inductive Permission where
  | default
  | granted
  | denied
  deriving DecidableEq, Repr

/-- The component together with the browser state it touches. -/
structure App where
  /-- The React state of the current render. -/
  prefs : Prefs
  /-- The contents of `localStorage`. -/
  storage : Storage
  /-- The value of `Notification.permission`. -/
  permission : Permission
  /-- The interval callbacks currently registered with the browser. -/
  timers : List Timer
  /-- The identifier the next `setInterval` call returns. -/
  nextTimerId : Nat
  /-- The variable `interval` captured by the pending cleanup of the timer
  effect; `none` is `undefined`. -/
  interval : Option Nat

/-- The permission effect (lines 34-38). -/
def permissionEffect (perm : Permission) : List Action :=
  if perm ≠ Permission.granted then [Action.requestPermission] else []

/-- The timer effect (lines 50-73) run for the current render. -/
def timerEffect (a : App) : App × List Action :=
  if a.prefs.enabled then
    ({ a with
        timers := a.timers ++ [{ id := a.nextTimerId, soundEnabled := a.prefs.soundEnabled,
                                 startHour := a.prefs.startHour, endHour := a.prefs.endHour,
                                 intervalMinutes := a.prefs.intervalMinutes }]
        nextTimerId := a.nextTimerId + 1
        interval := some a.nextTimerId },
     [Action.setInterval a.nextTimerId 60000])
  else ({ a with interval := none }, [])

/-- The cleanup returned by the timer effect (line 74): `clearInterval(interval)`,
which does nothing when `interval` is `undefined`. -/
def timerCleanup (a : App) : App × List Action :=
  match a.interval with
  | none => (a, [])
  | some id => ({ a with timers := a.timers.filter (fun t => t.id ≠ id) }, [Action.clearInterval id])

/-- First render and the three effects that follow it. -/
def mount (st : Storage) (perm : Permission) : App × List Action :=
  let p := initialPrefs st
  let a : App := { prefs := p, storage := saveEffect p st, permission := perm,
                   timers := [], nextTimerId := 1, interval := none }
  let r := timerEffect a
  (r.1, permissionEffect perm ++ r.2)

/-- The dependency list of the timer effect (line 75). -/
def timerDeps (p : Prefs) : Bool × Bool × JSNumber × JSNumber × JSNumber :=
  (p.enabled, p.soundEnabled, p.startHour, p.endHour, p.intervalMinutes)

/-- A state setter was called and the render it causes, if any: React skips
the render when the state is unchanged; otherwise the cleanup of an effect
whose dependencies changed runs, then the effects with changed dependencies
in source order (every preference is a dependency of the save effect). -/
def rerender (a : App) (p : Prefs) : App × List Action :=
  if p = a.prefs then (a, [])
  else if timerDeps p = timerDeps a.prefs then
    ({ a with prefs := p, storage := saveEffect p a.storage }, [])
  else
    let c := timerCleanup a
    let r := timerEffect { c.1 with prefs := p, storage := saveEffect p c.1.storage }
    (r.1, c.2 ++ r.2)

/-- The values of the interval menu items (line 122). -/
def intervalChoices : List Int := [15, 30, 45, 60]

/-- What can happen to a mounted component. -/
inductive Event where
  /-- Click on the theme button (line 86). -/
  | clickDarkMode
  /-- Change of the "Enable Reminders" switch (line 92). -/
  | changeEnabled (checked : Bool)
  /-- Change of the "Play Sound" switch (line 97). -/
  | changeSound (checked : Bool)
  /-- Selection of the start-hour menu item with value `i` (lines 103-106). -/
  | selectStartHour (i : Fin 24)
  /-- Selection of the end-hour menu item with value `i` (lines 112-115). -/
  | selectEndHour (i : Fin 24)
  /-- Selection of the `k`-th interval menu item (lines 121-124). -/
  | selectInterval (k : Fin 4)
  /-- The browser runs the interval callback `id` at local time `now`. -/
  | timerFires (id : Nat) (now : Clock)
  /-- The browser permission changes (the user answers the prompt). -/
  | permissionChanged (perm : Permission)

/-- One event: the new state and the browser calls issued. -/
def step (a : App) : Event → App × List Action
  | Event.clickDarkMode => rerender a { a.prefs with darkMode := !a.prefs.darkMode }
  | Event.changeEnabled checked => rerender a { a.prefs with enabled := checked }
  | Event.changeSound checked => rerender a { a.prefs with soundEnabled := checked }
  | Event.selectStartHour i =>
    rerender a { a.prefs with startHour := parseInt (toJSString (int i.val)) }
  | Event.selectEndHour i =>
    rerender a { a.prefs with endHour := parseInt (toJSString (int i.val)) }
  | Event.selectInterval k =>
    rerender a { a.prefs with
      intervalMinutes := parseInt (toJSString (int (intervalChoices.getD k.val 0))) }
  | Event.timerFires id now =>
    match a.timers.find? (fun t => t.id = id) with
    | some t => (a, tickBody t now)
    | none => (a, [])
  | Event.permissionChanged perm => ({ a with permission := perm }, [])

/-- The state after a sequence of events. -/
def run (a : App) (es : List Event) : App :=
  es.foldl (fun s e => (step s e).1) a

/-- Minutes since midnight as a time of day. -/
def clockOf (t : Nat) : Clock := { hours := (t / 60 : Nat), minutes := (t % 60 : Nat) }

/-- Whether the trigger predicate holds at minute `t` of the day. -/
def firesAt (startHour endHour intervalMinutes : Int) (t : Nat) : Bool :=
  trigger (int (clockOf t).hours) (int (clockOf t).minutes)
    (int startHour) (int endHour) (int intervalMinutes)

/-- Minutes `t1 < t2` of one day are consecutive firing times: the trigger
holds at both and at no minute between them. -/
def ConsecutiveFirings (startHour endHour intervalMinutes : Int) (t1 t2 : Nat) : Prop :=
  t1 < t2 ∧ t2 < 1440 ∧
  firesAt startHour endHour intervalMinutes t1 = true ∧
  firesAt startHour endHour intervalMinutes t2 = true ∧
  ∀ t, t1 < t → t < t2 → firesAt startHour endHour intervalMinutes t = false

/-- A character is one of `0` to `9`. -/
def IsDecimal (c : Char) : Prop := 48 ≤ c.toNat ∧ c.toNat ≤ 57

/-- The keys the component stores its preferences under. -/
def prefKeys : List String :=
  ["remindersEnabled", "soundEnabled", "startHour", "endHour", "intervalMinutes", "darkMode"]

/-- The callback the timer effect registers under `id` for preferences `p`. -/
def timerOf (id : Nat) (p : Prefs) : Timer :=
  { id := id, soundEnabled := p.soundEnabled, startHour := p.startHour,
    endHour := p.endHour, intervalMinutes := p.intervalMinutes }

/-- The registered callbacks agree with the current render: exactly one,
closed over the current preferences, when reminders are enabled, and none
otherwise. -/
def TimerInv (a : App) : Prop :=
  (a.prefs.enabled = true →
    ∃ id, a.interval = some id ∧ a.timers = [timerOf id a.prefs]) ∧
  (a.prefs.enabled = false → a.interval = none ∧ a.timers = [])

/-- The storage of a user who switched reminders and sound on earlier. -/
def enabledStorage : Storage :=
  setItem (setItem Storage.empty "remindersEnabled" "true") "soundEnabled" "true"

/-- A notification on the screen. -/
structure Shown where
  title : String
  body : String
  deriving DecidableEq, Repr

/-- What the browser shows for one call of the component. By the
Notifications API, `new Notification(title, options)` shows the notification
when the permission is `granted`; otherwise it fires an `error` event on the
new object, for which the component registers no handler, and shows nothing.
No other call of the component shows a notification. -/
def shownFor (perm : Permission) : Action → List Shown
  | Action.newNotification title body =>
    if perm = Permission.granted then [{ title := title, body := body }] else []
  | _ => []

/-- The notifications the browser shows for a sequence of calls. -/
def notificationsShown (perm : Permission) : List Action → List Shown
  | [] => []
  | act :: acts => shownFor perm act ++ notificationsShown perm acts

/-- The notifications shown when event `e` happens in state `a`, under the
permission of that moment. -/
def shownBy (a : App) (e : Event) : List Shown :=
  notificationsShown a.permission (step a e).2

/-- The reminder of line 63 as shown on the screen. -/
def reminderShown : Shown :=
  { title := "Check TradingView 📈", body := "Time to check your chart!" }

/-- The range bounds of the three integer preferences. -/
def InRange (p : Prefs) : Prop :=
  (∃ i : Int, p.startHour = int i ∧ 0 ≤ i ∧ i ≤ 23) ∧
  (∃ i : Int, p.endHour = int i ∧ 0 ≤ i ∧ i ≤ 23) ∧
  (∃ i : Int, p.intervalMinutes = int i ∧ i ∈ intervalChoices)

/-! ## Number to string and back -/

theorem digitChar_toNat (d : Nat) (h : d < 10) : (digitChar d).toNat = 48 + d := by
  have key : ∀ k : Fin 10, (digitChar k.val).toNat = 48 + k.val := by decide
  exact key ⟨d, h⟩

theorem isDecimal_digitChar (d : Nat) (h : d < 10) : IsDecimal (digitChar d) := by
  unfold IsDecimal
  rw [digitChar_toNat d h]
  omega

theorem radixDigit_of_isDecimal (c : Char) (h : IsDecimal c) :
    radixDigit 10 c = some (c.toNat - 48) := by
  obtain ⟨h1, h2⟩ := h
  have h3 : c.toNat - 48 < 10 := by omega
  simp [radixDigit, digitValue, h1, h2, h3]

theorem isWhiteSpace_of_isDecimal (c : Char) (h : IsDecimal c) : isWhiteSpace c = false := by
  obtain ⟨h1, h2⟩ := h
  simp only [isWhiteSpace, decide_eq_false_iff_not, List.mem_cons, List.mem_singleton, not_or]
  simp
  omega

theorem takeDigits_append_digit (cs : List Char) (hcs : ∀ c ∈ cs, IsDecimal c) (d : Nat)
    (hd : d < 10) : takeDigits 10 (cs ++ [digitChar d]) = takeDigits 10 cs ++ [d] := by
  induction cs with
  | nil =>
    have h := radixDigit_of_isDecimal _ (isDecimal_digitChar d hd)
    rw [digitChar_toNat d hd] at h
    simp [takeDigits, h]
  | cons c cs ih =>
    have hc := radixDigit_of_isDecimal c (hcs c (List.mem_cons_self _ _))
    have ih2 := ih (fun x hx => hcs x (List.mem_cons_of_mem _ hx))
    simp [takeDigits, hc, ih2]

theorem digitsValue_append (R : Nat) (ds : List Nat) (d : Nat) :
    digitsValue R (ds ++ [d]) = digitsValue R ds * R + d := by
  simp [digitsValue, List.foldl_append]

theorem decimalDigits_spec (fuel : Nat) : ∀ n, n < fuel →
    (∀ c ∈ decimalDigits fuel n, IsDecimal c) ∧
    decimalDigits fuel n ≠ [] ∧
    digitsValue 10 (takeDigits 10 (decimalDigits fuel n)) = n := by
  induction fuel with
  | zero => intro n h; omega
  | succ fuel ih =>
    intro n hn
    by_cases h10 : n < 10
    · have hd := isDecimal_digitChar n h10
      have hr := radixDigit_of_isDecimal _ hd
      rw [digitChar_toNat n h10] at hr
      simp [decimalDigits, h10, hd, takeDigits, hr, digitsValue]
    · have hlt : n / 10 < fuel := by omega
      obtain ⟨h1, h2, h3⟩ := ih (n / 10) hlt
      have hmod : n % 10 < 10 := Nat.mod_lt _ (by decide)
      refine ⟨?_, ?_, ?_⟩
      · intro c hc
        simp only [decimalDigits, h10, if_false, List.mem_append, List.mem_singleton] at hc
        rcases hc with hc | hc
        · exact h1 c hc
        · rw [hc]; exact isDecimal_digitChar _ hmod
      · simp [decimalDigits, h10]
      · simp only [decimalDigits, h10, if_false]
        rw [takeDigits_append_digit _ h1 _ hmod, digitsValue_append, h3]
        omega

theorem takeDigits_ne_nil (cs : List Char) (hne : cs ≠ []) (hcs : ∀ c ∈ cs, IsDecimal c) :
    (takeDigits 10 cs).isEmpty = false := by
  cases cs with
  | nil => exact absurd rfl hne
  | cons c cs =>
    have hc := radixDigit_of_isDecimal c (hcs c (List.mem_cons_self _ _))
    simp [takeDigits, hc]

theorem stripSign_of_decimal (cs : List Char) (hcs : ∀ c ∈ cs, IsDecimal c) :
    stripSign cs = (false, cs) := by
  cases cs with
  | nil => rfl
  | cons c cs =>
    obtain ⟨h1, h2⟩ := hcs c (List.mem_cons_self _ _)
    have a1 : c.toNat ≠ 45 := by omega
    have a2 : c.toNat ≠ 43 := by omega
    simp [stripSign, a1, a2]

theorem stripHexPrefix_of_decimal (cs : List Char) (hcs : ∀ c ∈ cs, IsDecimal c) :
    stripHexPrefix cs = (10, cs) := by
  match cs, hcs with
  | [], _ => rfl
  | [_], _ => rfl
  | a :: b :: cs, hcs =>
    obtain ⟨h1, h2⟩ := hcs b (by simp)
    have a1 : b.toNat ≠ 120 := by omega
    have a2 : b.toNat ≠ 88 := by omega
    simp [stripHexPrefix, a1, a2]

theorem dropWhile_of_decimal (cs : List Char) (hcs : ∀ c ∈ cs, IsDecimal c) :
    cs.dropWhile isWhiteSpace = cs := by
  cases cs with
  | nil => rfl
  | cons c cs =>
    have h := isWhiteSpace_of_isDecimal c (hcs c (List.mem_cons_self _ _))
    simp [List.dropWhile, h]

/-- Reading back the string form of an integer gives the integer. -/
theorem parseInt_toJSString (i : Int) : parseInt (toJSString (int i)) = int i := by
  obtain ⟨h1, h2, h3⟩ := decimalDigits_spec (i.natAbs + 1) i.natAbs (Nat.lt_succ_self _)
  by_cases hneg : i < 0
  · have hv : i.natAbs ≠ 0 := by omega
    have hv2 : -(i.natAbs : Int) = i := by omega
    have hw : isWhiteSpace (Char.ofNat 45) = false := by decide
    have hs : (Char.ofNat 45).toNat = 45 := by decide
    simp only [toJSString, hneg, if_true, parseInt, List.dropWhile, hw, stripSign, hs,
      stripHexPrefix_of_decimal _ h1, takeDigits_ne_nil _ h2 h1, h3]
    simp only [hv, false_and, if_false, if_true, hv2, Bool.false_eq_true]
  · have hv : (i.natAbs : Int) = i := by omega
    simp only [toJSString, hneg, if_false, parseInt, dropWhile_of_decimal _ h1,
      stripSign_of_decimal _ h1, stripHexPrefix_of_decimal _ h1, takeDigits_ne_nil _ h2 h1, h3]
    simp [hv]


/-! ## Persistence -/

theorem toJSString_int_ne_empty (i : Int) : toJSString (int i) ≠ "" := by
  obtain ⟨_, h2, _⟩ := decimalDigits_spec (i.natAbs + 1) i.natAbs (Nat.lt_succ_self _)
  intro h
  have hd := congrArg String.data h
  by_cases hneg : i < 0
  · simp [toJSString, hneg] at hd
  · simp [toJSString, hneg] at hd
    exact h2 hd

theorem parseInt_orDefault_saved (i : Int) (dflt : String) :
    parseInt (orDefault (some (toJSString (int i))) dflt) = int i := by
  simp [orDefault, toJSString_int_ne_empty, parseInt_toJSString]

theorem boolToString_eq_true (b : Bool) : decide (boolToString b = "true") = b := by
  cases b <;> decide

/-- C2. Writing the six preferences as the save effect does and computing the
initial state from the result as the `useState` initialisers do gives the
same six values, for all booleans, hours in 0..23 (0 included) and intervals
among 15, 30, 45, 60, whatever the storage held before. -/
theorem initialPrefs_saveEffect (enabled soundEnabled darkMode : Bool)
    (startHour endHour intervalMinutes : Int) (st : Storage)
    (_hs : 0 ≤ startHour ∧ startHour ≤ 23) (_he : 0 ≤ endHour ∧ endHour ≤ 23)
    (_hi : intervalMinutes ∈ intervalChoices) :
    initialPrefs (saveEffect
      { enabled := enabled, soundEnabled := soundEnabled, startHour := int startHour,
        endHour := int endHour, intervalMinutes := int intervalMinutes,
        darkMode := darkMode } st)
    = { enabled := enabled, soundEnabled := soundEnabled, startHour := int startHour,
        endHour := int endHour, intervalMinutes := int intervalMinutes,
        darkMode := darkMode } := by
  simp only [initialPrefs, saveEffect, getItem, setItem]
  simp [parseInt_orDefault_saved, boolToString_eq_true]

/-- The round trip at enabled, no sound, hours 0 and 23, interval 45, dark mode. -/
theorem initialPrefs_saveEffect_witness :
    initialPrefs (saveEffect
      { enabled := true, soundEnabled := false, startHour := int 0,
        endHour := int 23, intervalMinutes := int 45, darkMode := true } Storage.empty)
    = { enabled := true, soundEnabled := false, startHour := int 0,
        endHour := int 23, intervalMinutes := int 45, darkMode := true } :=
  initialPrefs_saveEffect true false true 0 23 45 Storage.empty (by decide) (by decide) (by decide)

/-- C8. When storage holds none of the six keys the initial state is
enabled = false, soundEnabled = false, startHour = 9, endHour = 17,
intervalMinutes = 30, darkMode = false. -/
theorem initialPrefs_defaults (st : Storage) (h : ∀ k ∈ prefKeys, getItem st k = none) :
    initialPrefs st =
      { enabled := false, soundEnabled := false, startHour := int 9, endHour := int 17,
        intervalMinutes := int 30, darkMode := false } := by
  have h1 := h "remindersEnabled" (by decide)
  have h2 := h "soundEnabled" (by decide)
  have h3 := h "startHour" (by decide)
  have h4 := h "endHour" (by decide)
  have h5 := h "intervalMinutes" (by decide)
  have h6 := h "darkMode" (by decide)
  have p9 : parseInt "9" = int 9 := by decide
  have p17 : parseInt "17" = int 17 := by decide
  have p30 : parseInt "30" = int 30 := by decide
  simp [initialPrefs, h1, h2, h3, h4, h5, h6, orDefault, p9, p17, p30]

/-- The defaults at the empty storage. -/
theorem initialPrefs_defaults_witness :
    initialPrefs Storage.empty =
      { enabled := false, soundEnabled := false, startHour := int 9, endHour := int 17,
        intervalMinutes := int 30, darkMode := false } :=
  initialPrefs_defaults Storage.empty (fun _ _ => rfl)

/-! ## Trigger predicate -/

theorem rem_eq_zero_iff (minute interval : Int) (hm : 0 ≤ minute) (hi : 0 < interval) :
    strictEq (rem (int minute) (int interval)) (int 0) = true ↔ minute % interval = 0 := by
  have hne : interval ≠ 0 := by omega
  have hnn : ¬ minute < 0 := by omega
  have ht : Int.tmod minute interval = minute % interval :=
    Int.tmod_eq_emod hm (le_of_lt hi)
  simp [rem, strictEq, value, hne, hnn, ht]

theorem trigger_int_iff (hour minute startHour endHour intervalMinutes : Int)
    (hm : 0 ≤ minute ∧ minute ≤ 59) (hi : 0 < intervalMinutes) :
    trigger (int hour) (int minute) (int startHour) (int endHour) (int intervalMinutes) = true
      ↔ startHour ≤ hour ∧ hour ≤ endHour ∧ minute % intervalMinutes = 0 := by
  have hr := rem_eq_zero_iff minute intervalMinutes hm.1 hi
  simp only [trigger, Bool.and_eq_true, Bool.or_eq_true, hr]
  simp [ge, le, gt, lt, value, hm.1, hm.2]
  tauto

theorem intervalChoices_pos (i : Int) (h : i ∈ intervalChoices) : 0 < i := by
  simp [intervalChoices] at h
  omega

/-- C1. For hour in 0..23, minute in 0..59, start and end in 0..23 and
interval in 15, 30, 45, 60, the condition checked by the timer tick is true,
and the tick constructs the notification, if and only if
start <= hour <= end and minute mod interval = 0. -/
theorem trigger_iff_window_and_multiple (hour minute startHour endHour intervalMinutes : Int)
    (id : Nat) (soundEnabled : Bool) (hm : 0 ≤ minute ∧ minute ≤ 59)
    (hi : intervalMinutes ∈ intervalChoices) :
    (trigger (int hour) (int minute) (int startHour) (int endHour) (int intervalMinutes) = true
      ↔ startHour ≤ hour ∧ hour ≤ endHour ∧ minute % intervalMinutes = 0) ∧
    (reminder ∈ tickBody
        { id := id, soundEnabled := soundEnabled, startHour := int startHour,
          endHour := int endHour, intervalMinutes := int intervalMinutes }
        { hours := hour, minutes := minute }
      ↔ startHour ≤ hour ∧ hour ≤ endHour ∧ minute % intervalMinutes = 0) := by
  have key := trigger_int_iff hour minute startHour endHour intervalMinutes hm
    (intervalChoices_pos _ hi)
  refine ⟨key, ?_⟩
  rw [← key]
  unfold tickBody
  split <;> simp_all

/-- The trigger equivalence at 9:30 with window 9..17 and interval 30. -/
theorem trigger_iff_window_and_multiple_witness :
    (trigger (int 9) (int 30) (int 9) (int 17) (int 30) = true
      ↔ (9 : Int) ≤ 9 ∧ (9 : Int) ≤ 17 ∧ (30 : Int) % 30 = 0) ∧
    (reminder ∈ tickBody
        { id := 1, soundEnabled := true, startHour := int 9,
          endHour := int 17, intervalMinutes := int 30 }
        { hours := 9, minutes := 30 }
      ↔ (9 : Int) ≤ 9 ∧ (9 : Int) ≤ 17 ∧ (30 : Int) % 30 = 0) :=
  trigger_iff_window_and_multiple 9 30 9 17 30 1 true (by decide) (by decide)

/-- C9. A window whose start hour is after its end hour never fires: the
trigger predicate is false at every hour and minute and for every interval. -/
theorem trigger_false_of_overnight (hours minutes intervalMinutes : JSNumber)
    (startHour endHour : Int) (h : endHour < startHour) :
    trigger hours minutes (int startHour) (int endHour) intervalMinutes = false := by
  have key : (ge hours (int startHour) && le hours (int endHour)) = false := by
    cases hours with
    | nan => simp [ge, value]
    | negZero =>
      simp only [ge, le, value, Bool.and_eq_false_imp, decide_eq_true_eq, decide_eq_false_iff_not]
      omega
    | int x =>
      simp only [ge, le, value, Bool.and_eq_false_imp, decide_eq_true_eq, decide_eq_false_iff_not]
      omega
  simp [trigger, key]

/-- The window 22..6 does not fire at 23:00. -/
theorem trigger_false_of_overnight_witness :
    trigger (int 23) (int 0) (int 22) (int 6) (int 15) = false :=
  trigger_false_of_overnight (int 23) (int 0) (int 15) 22 6 (by decide)


/-! ## Timer lifecycle -/

theorem timers_timerCleanup (a : App) (h : TimerInv a) : (timerCleanup a).1.timers = [] := by
  cases he : a.prefs.enabled with
  | false =>
    obtain ⟨h1, h2⟩ := h.2 he
    simp [timerCleanup, h1, h2]
  | true =>
    obtain ⟨id, h1, h2⟩ := h.1 he
    simp [timerCleanup, h1, h2, timerOf]

theorem prefs_timerEffect (a : App) : (timerEffect a).1.prefs = a.prefs := by
  unfold timerEffect
  split <;> rfl

theorem timerInv_timerEffect (a : App) (h : a.timers = []) : TimerInv (timerEffect a).1 := by
  cases he : a.prefs.enabled with
  | false => simp [TimerInv, timerEffect, he, h]
  | true => simp [TimerInv, timerEffect, he, h, timerOf]

theorem timerInv_mount (st : Storage) (perm : Permission) : TimerInv (mount st perm).1 :=
  timerInv_timerEffect _ rfl

theorem prefs_rerender (a : App) (p : Prefs) : (rerender a p).1.prefs = p := by
  unfold rerender
  by_cases h1 : p = a.prefs
  · simp [h1]
  · by_cases h2 : timerDeps p = timerDeps a.prefs
    · simp [h1, h2]
    · simp [h1, h2, prefs_timerEffect]

theorem timerInv_rerender (a : App) (p : Prefs) (h : TimerInv a) :
    TimerInv (rerender a p).1 := by
  unfold rerender
  by_cases h1 : p = a.prefs
  · simpa [h1] using h
  · by_cases h2 : timerDeps p = timerDeps a.prefs
    · simp only [h1, h2, if_false, if_true]
      have he : p.enabled = a.prefs.enabled := congrArg (fun d => d.1) h2
      have ht : ∀ id, timerOf id p = timerOf id a.prefs := by
        intro id
        simp only [timerDeps, Prod.mk.injEq] at h2
        simp [timerOf, h2]
      refine ⟨fun hp => ?_, fun hp => ?_⟩
      · obtain ⟨id, i1, i2⟩ := h.1 (he ▸ hp)
        exact ⟨id, i1, by rw [ht]; exact i2⟩
      · exact h.2 (he ▸ hp)
    · simp only [h1, h2, if_false]
      exact timerInv_timerEffect _ (timers_timerCleanup a h)

theorem timerInv_step (a : App) (e : Event) (h : TimerInv a) : TimerInv (step a e).1 := by
  cases e with
  | timerFires id now =>
    simp only [step]
    split <;> exact h
  | permissionChanged perm => exact h
  | _ => exact timerInv_rerender _ _ h

theorem timerInv_run (es : List Event) : ∀ a, TimerInv a → TimerInv (run a es) := by
  induction es with
  | nil => intro a h; exact h
  | cons e es ih => intro a h; exact ih _ (timerInv_step a e h)

/-- C4. In every state reached from a mount in which enabled is false no
interval callback is registered and a timer event issues no browser call,
whatever the time; and in every reached state in which enabled is true,
switching the switch off clears the one running timer and leaves none. -/
theorem disabled_is_silent (st : Storage) (perm : Permission) (es : List Event) :
    ((run (mount st perm).1 es).prefs.enabled = false →
      (run (mount st perm).1 es).timers = [] ∧
      ∀ id now, (step (run (mount st perm).1 es) (Event.timerFires id now)).2 = []) ∧
    ((run (mount st perm).1 es).prefs.enabled = true →
      ∃ id, (run (mount st perm).1 es).timers = [timerOf id (run (mount st perm).1 es).prefs] ∧
        (step (run (mount st perm).1 es) (Event.changeEnabled false)).2
          = [Action.clearInterval id] ∧
        (step (run (mount st perm).1 es) (Event.changeEnabled false)).1.timers = [] ∧
        (step (run (mount st perm).1 es) (Event.changeEnabled false)).1.prefs.enabled = false) := by
  have inv := timerInv_run es _ (timerInv_mount st perm)
  generalize run (mount st perm).1 es = a at inv
  refine ⟨fun he => ?_, fun he => ?_⟩
  · obtain ⟨_, h2⟩ := inv.2 he
    refine ⟨h2, fun id now => ?_⟩
    simp [step, h2]
  · obtain ⟨id, h1, h2⟩ := inv.1 he
    refine ⟨id, h2, ?_, ?_, ?_⟩
    · have hne : ¬ ({ a.prefs with enabled := false } : Prefs) = a.prefs := by
        intro hc
        have := congrArg Prefs.enabled hc
        simp [he] at this
      have hd : ¬ timerDeps { a.prefs with enabled := false } = timerDeps a.prefs := by
        simp [timerDeps, he]
      simp [step, rerender, hne, hd, timerCleanup, h1, timerEffect]
    · have inv2 := timerInv_step a (Event.changeEnabled false) inv
      have hp : (step a (Event.changeEnabled false)).1.prefs.enabled = false := by
        simp [step, prefs_rerender]
      exact (inv2.2 hp).2
    · simp [step, prefs_rerender]


/-- The freshly mounted component with empty storage is disabled and silent, and one
event enables it. -/
theorem disabled_is_silent_witness :
    ((run (mount Storage.empty Permission.granted).1 []).prefs.enabled = false →
      (run (mount Storage.empty Permission.granted).1 []).timers = [] ∧
      ∀ id now, (step (run (mount Storage.empty Permission.granted).1 [])
        (Event.timerFires id now)).2 = []) ∧
    (run (mount Storage.empty Permission.granted).1 []).prefs.enabled = false ∧
    (run (mount Storage.empty Permission.granted).1 [Event.changeEnabled true]).prefs.enabled
      = true :=
  ⟨(disabled_is_silent Storage.empty Permission.granted []).1, by decide, by decide⟩

/-! ## Tick body -/

theorem reminder_mem_tickBody (t : Timer) (now : Clock) :
    reminder ∈ tickBody t now ↔
      trigger (int now.hours) (int now.minutes) t.startHour t.endHour t.intervalMinutes
        = true := by
  unfold tickBody
  split <;> simp_all

theorem ding_mem_tickBody (t : Timer) (now : Clock) :
    ding ∈ tickBody t now ↔
      trigger (int now.hours) (int now.minutes) t.startHour t.endHour t.intervalMinutes = true
        ∧ t.soundEnabled = true := by
  have hne : ding ≠ reminder := by decide
  unfold tickBody
  by_cases h : trigger (int now.hours) (int now.minutes) t.startHour t.endHour
      t.intervalMinutes = true
  · cases hs : t.soundEnabled <;> simp [h, hne]
  · simp [h]

/-- C7. In every state reached from a mount, a timer event plays the sound
if and only if reminders are enabled, the event is that of the registered
callback, the trigger predicate holds for the current hour and minute with
the current preferences, and soundEnabled is true; and an event that
constructs no notification plays no sound. -/
theorem sound_follows_notification (st : Storage) (perm : Permission) (es : List Event)
    (id : Nat) (now : Clock) :
    (ding ∈ (step (run (mount st perm).1 es) (Event.timerFires id now)).2 ↔
      (run (mount st perm).1 es).prefs.enabled = true ∧
      (run (mount st perm).1 es).interval = some id ∧
      trigger (int now.hours) (int now.minutes) (run (mount st perm).1 es).prefs.startHour
        (run (mount st perm).1 es).prefs.endHour
        (run (mount st perm).1 es).prefs.intervalMinutes = true ∧
      (run (mount st perm).1 es).prefs.soundEnabled = true) ∧
    (reminder ∉ (step (run (mount st perm).1 es) (Event.timerFires id now)).2 →
      ding ∉ (step (run (mount st perm).1 es) (Event.timerFires id now)).2) := by
  have inv := timerInv_run es _ (timerInv_mount st perm)
  generalize run (mount st perm).1 es = a at inv
  cases he : a.prefs.enabled with
  | false =>
    obtain ⟨_, h2⟩ := inv.2 he
    simp [step, h2]
  | true =>
    obtain ⟨id0, h1, h2⟩ := inv.1 he
    by_cases hid : id0 = id
    · subst hid
      have hf : a.timers.find? (fun t => decide (t.id = id0)) = some (timerOf id0 a.prefs) := by
        simp [h2, timerOf]
      simp only [step, hf, h1, ding_mem_tickBody, reminder_mem_tickBody, true_and]
      simp only [timerOf]
      tauto
    · have hf : a.timers.find? (fun t => decide (t.id = id)) = none := by
        simp [h2, timerOf, hid]
      simp [step, hf, h1, hid]

/-! ## Interval spacing -/

theorem firesAt_iff (s e iv : Int) (hiv : 0 < iv) (t : Nat) :
    firesAt s e iv t = true ↔
      s ≤ ((t / 60 : Nat) : Int) ∧ ((t / 60 : Nat) : Int) ≤ e ∧ ((t % 60 : Nat) : Int) % iv = 0 := by
  have hm : (0 : Int) ≤ ((t % 60 : Nat) : Int) ∧ ((t % 60 : Nat) : Int) ≤ 59 := by omega
  exact trigger_int_iff _ _ s e iv hm hiv

theorem firesAt_eq_false_iff (s e iv : Int) (hiv : 0 < iv) (t : Nat) :
    firesAt s e iv t = false ↔
      ¬ (s ≤ ((t / 60 : Nat) : Int) ∧ ((t / 60 : Nat) : Int) ≤ e ∧
        ((t % 60 : Nat) : Int) % iv = 0) := by
  rw [← firesAt_iff s e iv hiv t]
  simp

/-- For the intervals that divide 60, consecutive firing times of a day are
exactly the interval apart. -/
theorem consecutive_firings_of_divisor (iv : Int) (hiv : iv = 15 ∨ iv = 30 ∨ iv = 60)
    (s e : Int) (t1 t2 : Nat) (h : ConsecutiveFirings s e iv t1 t2) :
    (t2 : Int) - t1 = iv := by
  obtain ⟨hlt, _, f1, f2, hb⟩ := h
  have hpos : 0 < iv := by omega
  rw [firesAt_iff s e iv hpos] at f1 f2
  rcases hiv with rfl | rfl | rfl
  · have hb2 := hb (t1 + 15)
    rw [firesAt_eq_false_iff _ _ _ hpos] at hb2
    by_contra hne
    have hlt2 : t1 + 15 < t2 := by omega
    exact hb2 (by omega) hlt2 ⟨by omega, by omega, by omega⟩
  · have hb2 := hb (t1 + 30)
    rw [firesAt_eq_false_iff _ _ _ hpos] at hb2
    by_contra hne
    have hlt2 : t1 + 30 < t2 := by omega
    exact hb2 (by omega) hlt2 ⟨by omega, by omega, by omega⟩
  · have hb2 := hb (t1 + 60)
    rw [firesAt_eq_false_iff _ _ _ hpos] at hb2
    by_contra hne
    have hlt2 : t1 + 60 < t2 := by omega
    exact hb2 (by omega) hlt2 ⟨by omega, by omega, by omega⟩

/-- C3 (fails for 45). With the window 9..17 and interval 45 the trigger
holds at 9:45 and at 10:00 and at no minute between, so two consecutive
firing times are 15 minutes apart: it is not true that for every interval
in 15, 30, 45, 60 and every window start <= end consecutive firing times are
exactly intervalMinutes apart. -/
theorem consecutive_firings_not_interval_apart :
    ¬ (∀ intervalMinutes ∈ intervalChoices, ∀ startHour endHour : Int, startHour ≤ endHour →
        ∀ t1 t2 : Nat, ConsecutiveFirings startHour endHour intervalMinutes t1 t2 →
          (t2 : Int) - t1 = intervalMinutes) := by
  intro h
  have hc : ConsecutiveFirings 9 17 45 585 600 := by
    refine ⟨by decide, by decide, by decide, by decide, ?_⟩
    intro t h1 h2
    interval_cases t <;> decide
  have := h 45 (by decide) 9 17 (by decide) 585 600 hc
  omega

/-! ## Permission -/

theorem notificationsShown_tickBody (perm : Permission) (t : Timer) (now : Clock) :
    notificationsShown perm (tickBody t now) =
      if perm = Permission.granted ∧
          trigger (int now.hours) (int now.minutes) t.startHour t.endHour t.intervalMinutes
            = true
      then [reminderShown] else [] := by
  unfold tickBody
  by_cases htr : trigger (int now.hours) (int now.minutes) t.startHour t.endHour
      t.intervalMinutes = true
  · by_cases hp : perm = Permission.granted
    · cases hs : t.soundEnabled <;>
        simp [htr, hp, notificationsShown, shownFor, reminder, ding, reminderShown]
    · cases hs : t.soundEnabled <;>
        simp [htr, hp, notificationsShown, shownFor, reminder, ding]
  · simp [htr, notificationsShown]

/-- The callback does not read the permission: a timer event issues the same
browser calls whatever the permission is. -/
theorem timerFires_calls_permission_independent (a : App) (perm : Permission) (id : Nat)
    (now : Clock) :
    (step { a with permission := perm } (Event.timerFires id now)).2
      = (step a (Event.timerFires id now)).2 := by
  simp only [step]
  split <;> rfl

/-- C6. In every state reached from a mount and at every time of day, a
timer event shows the reminder exactly when the permission is granted,
reminders are enabled, the event is that of the registered callback and the
trigger predicate holds for the current preferences, and shows nothing
otherwise; in particular, when the permission is not granted a tick
produces no notification (the callback still constructs it, the browser
does not show it). -/
theorem no_notification_without_permission (st : Storage) (perm : Permission)
    (es : List Event) (id : Nat) (now : Clock) :
    (shownBy (run (mount st perm).1 es) (Event.timerFires id now) =
      if (run (mount st perm).1 es).permission = Permission.granted ∧
          (run (mount st perm).1 es).prefs.enabled = true ∧
          (run (mount st perm).1 es).interval = some id ∧
          trigger (int now.hours) (int now.minutes) (run (mount st perm).1 es).prefs.startHour
            (run (mount st perm).1 es).prefs.endHour
            (run (mount st perm).1 es).prefs.intervalMinutes = true
      then [reminderShown] else []) ∧
    ((run (mount st perm).1 es).permission ≠ Permission.granted →
      shownBy (run (mount st perm).1 es) (Event.timerFires id now) = []) := by
  have inv := timerInv_run es _ (timerInv_mount st perm)
  generalize run (mount st perm).1 es = a at inv
  have key : shownBy a (Event.timerFires id now) =
      if a.permission = Permission.granted ∧ a.prefs.enabled = true ∧ a.interval = some id ∧
          trigger (int now.hours) (int now.minutes) a.prefs.startHour a.prefs.endHour
            a.prefs.intervalMinutes = true
      then [reminderShown] else [] := by
    cases he : a.prefs.enabled with
    | false =>
      obtain ⟨_, h2⟩ := inv.2 he
      simp [shownBy, step, h2, notificationsShown]
    | true =>
      obtain ⟨id0, h1, h2⟩ := inv.1 he
      by_cases hid : id0 = id
      · subst hid
        have hf : a.timers.find? (fun t => decide (t.id = id0))
            = some (timerOf id0 a.prefs) := by
          simp [h2, timerOf]
        simp only [shownBy, step, hf, notificationsShown_tickBody, h1, true_and]
        simp only [timerOf]
      · have hf : a.timers.find? (fun t => decide (t.id = id)) = none := by
          simp [h2, timerOf, hid]
        simp [shownBy, step, hf, h1, hid, notificationsShown]
  refine ⟨key, fun hp => ?_⟩
  rw [key]
  simp [hp]

/-- With reminders and sound enabled in storage, the tick at 9:00 of the
component mounted under a denied permission constructs the notification and
plays the sound, and nothing is shown; under a granted permission the
reminder is shown. -/
theorem no_notification_without_permission_witness :
    (step (run (mount enabledStorage Permission.denied).1 [])
      (Event.timerFires 1 { hours := 9, minutes := 0 })).2 = [reminder, ding] ∧
    shownBy (run (mount enabledStorage Permission.denied).1 [])
      (Event.timerFires 1 { hours := 9, minutes := 0 }) = [] ∧
    shownBy (run (mount enabledStorage Permission.granted).1 [])
      (Event.timerFires 1 { hours := 9, minutes := 0 }) = [reminderShown] :=
  ⟨by decide,
   (no_notification_without_permission enabledStorage Permission.denied [] 1
      { hours := 9, minutes := 0 }).2 (by decide),
   by decide⟩

/-! ## Range bounds -/

theorem inRange_defaults : InRange (initialPrefs Storage.empty) := by
  have hd : initialPrefs Storage.empty =
      { enabled := false, soundEnabled := false, startHour := int 9, endHour := int 17,
        intervalMinutes := int 30, darkMode := false } := by decide
  rw [hd]
  exact ⟨⟨9, rfl, by decide, by decide⟩, ⟨17, rfl, by decide, by decide⟩, ⟨30, rfl, by decide⟩⟩

theorem intervalChoices_getD_mem (k : Fin 4) : intervalChoices.getD k.val 0 ∈ intervalChoices := by
  revert k
  decide

theorem inRange_step (a : App) (e : Event) (h : InRange a.prefs) :
    InRange (step a e).1.prefs := by
  obtain ⟨hs, he, hi⟩ := h
  cases e with
  | timerFires id now =>
    simp only [step]
    split <;> exact ⟨hs, he, hi⟩
  | permissionChanged perm => exact ⟨hs, he, hi⟩
  | clickDarkMode => simp only [step, prefs_rerender]; exact ⟨hs, he, hi⟩
  | changeEnabled c => simp only [step, prefs_rerender]; exact ⟨hs, he, hi⟩
  | changeSound c => simp only [step, prefs_rerender]; exact ⟨hs, he, hi⟩
  | selectStartHour i =>
    simp only [step, prefs_rerender, parseInt_toJSString]
    exact ⟨⟨i.val, rfl, by omega, by omega⟩, he, hi⟩
  | selectEndHour i =>
    simp only [step, prefs_rerender, parseInt_toJSString]
    exact ⟨hs, ⟨i.val, rfl, by omega, by omega⟩, hi⟩
  | selectInterval k =>
    simp only [step, prefs_rerender, parseInt_toJSString]
    exact ⟨hs, he, ⟨_, rfl, intervalChoices_getD_mem k⟩⟩

theorem inRange_run (es : List Event) : ∀ a, InRange a.prefs → InRange (run a es).prefs := by
  induction es with
  | nil => intro a h; exact h
  | cons e es ih => intro a h; exact ih _ (inRange_step a e h)

/-- C5. Starting from the state loaded from empty storage, after any
sequence of events (the three switches and buttons, the selection of a start
hour, end hour or interval menu item, timer events) startHour and endHour
are integers in 0..23 and intervalMinutes is one of 15, 30, 45, 60. -/
theorem prefs_stay_in_range (perm : Permission) (es : List Event) :
    InRange (run (mount Storage.empty perm).1 es).prefs := by
  apply inRange_run
  have : (mount Storage.empty perm).1.prefs = initialPrefs Storage.empty := by
    simp [mount, prefs_timerEffect]
  rw [this]
  exact inRange_defaults

end RemindMe
